import Mathlib

/-!
Shallow embedding of the `ts-optional` repository.

The embedded code is `src/optional-value.ts` (the `Optional<T>` class) and
`no-such-element.exception.ts` (the `NoSuchElementException` error class).
A JavaScript value of declared type `T` is modelled by `JSVal α`, which keeps
the two distinct absence sentinels (`null` and `undefined`) apart from proper
values.  Caller-supplied callbacks (the `func` of `ifPresent` /
`ifPresentAsync` and the `predicate` of `isPresentAnd`) may have side effects
and may throw, so they are modelled as state-and-exception transformers
`JSVal α → σ → σ × Except ε β`.  A method that can throw returns an
`Except NoSuchElementException` value.  Mutation of the container by `orElse`
(the only method that assigns `this._value`) is modelled by explicit state
passing: the container returned by `orElse` is the updated state of the same
container.
-/

/-- A JavaScript value of type `α`: the `null` sentinel, the `undefined`
sentinel, or a proper value of type `α`. -/
inductive JSVal (α : Type) where
  | vnull : JSVal α
  | vundef : JSVal α
  | val : α → JSVal α
deriving DecidableEq

namespace JSVal

/-- `v === null` for a JavaScript value `v`. -/
def isNull : JSVal α → Bool
  | .vnull => true
  | _ => false

/-- `v === undefined` for a JavaScript value `v`. -/
def isUndefined : JSVal α → Bool
  | .vundef => true
  | _ => false

end JSVal

/-- The `name` the constructor of `NoSuchElementException` assigns. -/
def exceptionName : String := "NoSuchElementException"

/-- From `no-such-element.exception.ts`: an `Error` subclass carrying the
optional `message` handed to `super(message)` and the `name` field the
constructor sets. -/
structure NoSuchElementException where
  message : Option String
  name : String
deriving DecidableEq

/-- The constructor of `NoSuchElementException`: `super(message)` stores the
optional message, then `this.name = "NoSuchElementException"`. -/
def NoSuchElementException.make (message : Option String) : NoSuchElementException :=
  ⟨message, exceptionName⟩

/-- From `optional-value.ts`: `class Optional<T>` with its single private
field `_value: T`.  The constructor stores the given value as-is. -/
structure Optional (α : Type) where
  _value : JSVal α
deriving DecidableEq

namespace Optional

/-- `static of<T>(value: T)`: `return new Optional(value)`. -/
def of (value : JSVal α) : Optional α := ⟨value⟩

/-- `isPresent()`: `return this._value !== null && this._value !== undefined`. -/
def isPresent (o : Optional α) : Bool :=
  !o._value.isNull && !o._value.isUndefined

/-- `isEmpty()`: `return !this.isPresent()`. -/
def isEmpty (o : Optional α) : Bool := !o.isPresent

/-- `get()`: `if (!this.isPresent()) { throw new NoSuchElementException(); }
return this._value;`.  The `throw` with no argument leaves the message empty. -/
def get (o : Optional α) : Except NoSuchElementException (JSVal α) :=
  if !o.isPresent then Except.error (NoSuchElementException.make none)
  else Except.ok o._value

/-- `orElse(value)`: `if (this.isEmpty()) { this._value = value; } return this;`.
The returned container is the (possibly updated) state of `this`. -/
def orElse (o : Optional α) (value : JSVal α) : Optional α :=
  if o.isEmpty then Optional.mk value else o

/-- `ifPresent(func)`: `if (this.isPresent()) { func(this._value); }`.
The callback is an effectful function threaded through caller state `s`. -/
def ifPresent (o : Optional α) (func : JSVal α → σ → σ × Except ε Unit)
    (s : σ) : σ × Except ε Unit :=
  if o.isPresent then func o._value s else (s, Except.ok ())

/-- `isPresentAnd(predicate)`:
`return this.isPresent() && predicate(this._value);` — the `&&`
short-circuits, so the predicate runs only on a present container. -/
def isPresentAnd (o : Optional α) (predicate : JSVal α → σ → σ × Except ε Bool)
    (s : σ) : σ × Except ε Bool :=
  if o.isPresent then predicate o._value s else (s, Except.ok false)

/-- `async ifPresentAsync(func)`:
`if (this.isPresent()) { await func(this._value); }` — the returned promise
settles with the outcome of `func` when present, and resolves at once when
empty.  Denotationally (single-threaded cooperative suspension) this is the
same state-and-exception transformer as the synchronous variant. -/
def ifPresentAsync (o : Optional α) (func : JSVal α → σ → σ × Except ε Unit)
    (s : σ) : σ × Except ε Unit :=
  if o.isPresent then func o._value s else (s, Except.ok ())

end Optional

/-- One method invocation on an `Optional` container, used to state the
state-machine invariant over arbitrary call sequences. -/
inductive MethodCall (α σ ε : Type) where
  | getCall : MethodCall α σ ε
  | isPresentCall : MethodCall α σ ε
  | isEmptyCall : MethodCall α σ ε
  | ifPresentCall (func : JSVal α → σ → σ × Except ε Unit) : MethodCall α σ ε
  | ifPresentAsyncCall (func : JSVal α → σ → σ × Except ε Unit) : MethodCall α σ ε
  | isPresentAndCall (predicate : JSVal α → σ → σ × Except ε Bool) : MethodCall α σ ε
  | orElseCall (value : JSVal α) : MethodCall α σ ε

/-- The effect of one method call on the container's `_value`.  In the source,
`orElse` is the only method whose body assigns `this._value`; every other
method only reads it, so the container state is unchanged. -/
def step (o : Optional α) : MethodCall α σ ε → Optional α
  | .getCall => o
  | .isPresentCall => o
  | .isEmptyCall => o
  | .ifPresentCall _ => o
  | .ifPresentAsyncCall _ => o
  | .isPresentAndCall _ => o
  | .orElseCall v => o.orElse v

/-- The container state after a sequence of method calls. -/
def runOps (o : Optional α) : List (MethodCall α σ ε) → Optional α
  | [] => o
  | op :: ops => runOps (step o op) ops

/-- Instrument an effectful callback with an invocation counter: each call
increments the counter and then behaves like the original callback. -/
def countCalls (func : JSVal α → σ → σ × Except ε Unit) :
    JSVal α → Nat × σ → (Nat × σ) × Except ε Unit :=
  fun v ns => ((ns.1 + 1, (func v ns.2).1), (func v ns.2).2)

/-- A pure boolean predicate viewed as an effect-free callback. -/
def pureP (pred : JSVal α → Bool) : JSVal α → σ → σ × Except ε Bool :=
  fun v s => (s, Except.ok (pred v))

/-- The empty string, a falsy-but-present JavaScript value. -/
def emptyString : String := ""

/-! Helper lemmas shared by the claim theorems. -/

theorem isPresent_iff_val (o : Optional α) :
    o.isPresent = true ↔ ∃ a, o._value = JSVal.val a := by
  cases o with
  | mk v =>
    cases v <;> simp [Optional.isPresent, JSVal.isNull, JSVal.isUndefined]

theorem isEmpty_eq_false_iff (o : Optional α) :
    o.isEmpty = true ↔ o.isPresent = false := by
  simp [Optional.isEmpty]

theorem step_present (o : Optional α) (op : MethodCall α σ ε)
    (h : o.isPresent = true) : step o op = o := by
  cases op <;> simp [step, Optional.orElse, Optional.isEmpty, h]

theorem runOps_present (o : Optional α) (ops : List (MethodCall α σ ε))
    (h : o.isPresent = true) : runOps o ops = o := by
  induction ops with
  | nil => rfl
  | cons op ops ih =>
    show runOps (step o op) ops = o
    rw [step_present o op h]
    exact ih

/-- C1: `isPresent()` returns true iff the stored value is neither the null
sentinel nor the undefined sentinel; falsy values such as `0`, the empty
string and `false` count as present (`of(0).isPresent() == true`).
`isPresent` is a pure function of the container, so it has no side effects. -/
theorem isPresent_sentinel_spec (o : Optional α) :
    (o.isPresent = true ↔ (o._value ≠ JSVal.vnull ∧ o._value ≠ JSVal.vundef))
    ∧ (Optional.of (JSVal.val (0 : Nat))).isPresent = true
    ∧ (Optional.of (JSVal.val emptyString)).isPresent = true
    ∧ (Optional.of (JSVal.val false)).isPresent = true := by
  refine ⟨?_, rfl, rfl, rfl⟩
  cases o with
  | mk v =>
    cases v <;> simp [Optional.isPresent, JSVal.isNull, JSVal.isUndefined]

/-- C2: `get()` returns the `NoSuchElementException` error exactly when the
container is empty, and returns the stored value normally when present; every
other operation either cannot raise at all (`isPresent`, `isEmpty`, `orElse`
return no error by their types) or only passes through an error produced by
the caller-supplied callback, so the component itself raises the exception
only from `get()`. -/
theorem get_error_spec (σ ε : Type) (o : Optional α) :
    (o.isEmpty = true → o.get = Except.error (NoSuchElementException.make none))
    ∧ (o.isPresent = true → o.get = Except.ok o._value)
    ∧ (∀ (func : JSVal α → σ → σ × Except ε Unit) (s s' : σ) (e : ε),
        o.ifPresent func s = (s', Except.error e) →
        func o._value s = (s', Except.error e))
    ∧ (∀ (func : JSVal α → σ → σ × Except ε Unit) (s s' : σ) (e : ε),
        o.ifPresentAsync func s = (s', Except.error e) →
        func o._value s = (s', Except.error e))
    ∧ (∀ (p : JSVal α → σ → σ × Except ε Bool) (s s' : σ) (e : ε),
        o.isPresentAnd p s = (s', Except.error e) →
        p o._value s = (s', Except.error e)) := by
  refine ⟨?_, ?_, ?_, ?_, ?_⟩
  · intro h
    have hp : o.isPresent = false := (isEmpty_eq_false_iff o).mp h
    simp [Optional.get, hp]
  · intro h
    simp [Optional.get, h]
  · intro f s s' e hres
    by_cases hp : o.isPresent = true
    · simpa [Optional.ifPresent, hp] using hres
    · simp [Optional.ifPresent, hp] at hres
  · intro f s s' e hres
    by_cases hp : o.isPresent = true
    · simpa [Optional.ifPresentAsync, hp] using hres
    · simp [Optional.ifPresentAsync, hp] at hres
  · intro p s s' e hres
    by_cases hp : o.isPresent = true
    · simpa [Optional.isPresentAnd, hp] using hres
    · simp [Optional.isPresentAnd, hp] at hres

/-- C3: `orElse(defaultValue)` overwrites the stored value with the default
when the container is empty at call time and leaves it unchanged when
present; in the state-passing model the returned container is the updated
state of the same container (the source returns `this`).  Consequently
`of(null).orElse(X).get() == X` for any present `X`, and
`of(Y).orElse(X).get() == Y` when `Y` is present. -/
theorem orElse_spec (o : Optional α) (v : JSVal α) :
    (o.isEmpty = true → o.orElse v = Optional.mk v)
    ∧ (o.isPresent = true → o.orElse v = o)
    ∧ (∀ x : JSVal α, (Optional.of x).isPresent = true →
        ((Optional.of JSVal.vnull).orElse x).get = Except.ok x)
    ∧ (∀ y x : JSVal α, (Optional.of y).isPresent = true →
        ((Optional.of y).orElse x).get = Except.ok y) := by
  refine ⟨?_, ?_, ?_, ?_⟩
  · intro h
    simp [Optional.orElse, h]
  · intro h
    simp [Optional.orElse, Optional.isEmpty, h]
  · intro x hx
    have h1 : (Optional.of (JSVal.vnull : JSVal α)).orElse x = Optional.mk x := by
      simp [Optional.of, Optional.orElse, Optional.isEmpty, Optional.isPresent,
        JSVal.isNull, JSVal.isUndefined]
    rw [h1]
    have hx' : (Optional.mk x).isPresent = true := hx
    simp [Optional.get, hx']
  · intro y x hy
    have h1 : (Optional.of y).orElse x = Optional.of y := by
      simp [Optional.orElse, Optional.isEmpty, hy]
    rw [h1]
    have hy' : (Optional.mk y).isPresent = true := hy
    simp [Optional.get, Optional.of, hy']

/-- C4: state-machine invariant.  Among all seven operations, only `orElse`
can change the container state, and only when the container was empty at call
time; in particular a present container is left exactly as it is by every
operation, so no sequence of calls ever takes a PRESENT container to EMPTY. -/
theorem presence_state_machine (σ ε : Type) (o o' : Optional α)
    (op : MethodCall α σ ε) (ops : List (MethodCall α σ ε))
    (h : o.isPresent = true) :
    runOps o ops = o
    ∧ (runOps o ops).isPresent = true
    ∧ ((∀ v, op ≠ MethodCall.orElseCall v) → step o' op = o') := by
  refine ⟨runOps_present o ops h, ?_, ?_⟩
  · rw [runOps_present o ops h]
    exact h
  · intro hop
    cases op with
    | orElseCall v => exact absurd rfl (hop v)
    | getCall => rfl
    | isPresentCall => rfl
    | isEmptyCall => rfl
    | ifPresentCall f => rfl
    | ifPresentAsyncCall f => rfl
    | isPresentAndCall p => rfl

/-- C4 witness: on the present container `of(0)`, the call sequence
`orElse(1); get()` leaves the container unchanged. -/
theorem presence_state_machine_witness :
    (Optional.mk (JSVal.val (0 : Nat))).isPresent = true
    ∧ runOps (Optional.mk (JSVal.val (0 : Nat)))
        ([MethodCall.orElseCall (JSVal.val 1), MethodCall.getCall] :
          List (MethodCall Nat Unit Unit))
      = Optional.mk (JSVal.val (0 : Nat)) := by
  refine ⟨by decide, ?_⟩
  exact (presence_state_machine Unit Unit (Optional.mk (JSVal.val (0 : Nat)))
    (Optional.mk (JSVal.val (0 : Nat))) MethodCall.getCall
    [MethodCall.orElseCall (JSVal.val 1), MethodCall.getCall] (by decide)).1

/-- C5: round-trip — for every present value `v`, `of(v).get()` returns
exactly the stored value `v` (the container stores and returns it as-is,
without any transformation). -/
theorem of_get_roundtrip (v : JSVal α)
    (h : (Optional.of v).isPresent = true) :
    (Optional.of v).get = Except.ok v := by
  have h' : (Optional.mk v).isPresent = true := h
  simp [Optional.get, Optional.of, h']

/-- C5 witness: `of(5).get() == 5`. -/
theorem of_get_roundtrip_witness :
    (Optional.of (JSVal.val (5 : Nat))).isPresent = true
    ∧ (Optional.of (JSVal.val (5 : Nat))).get = Except.ok (JSVal.val (5 : Nat)) :=
  ⟨by decide, of_get_roundtrip (JSVal.val (5 : Nat)) (by decide)⟩

/-- C6: `ifPresent(action)` — on a present container the result is exactly
one application of the action to the contained value (so any error the action
raises is passed to the caller unmodified); on an empty container the action
is never invoked, the caller state is untouched and no error is raised; the
invocation counter instrumentation confirms the action runs exactly once when
present and zero times when empty. -/
theorem ifPresent_spec (o : Optional α)
    (func : JSVal α → σ → σ × Except ε Unit) (s : σ) :
    (o.isPresent = true → o.ifPresent func s = func o._value s)
    ∧ (o.isEmpty = true → o.ifPresent func s = (s, Except.ok ()))
    ∧ (o.ifPresent (countCalls func) (0, s)).1.1
        = (if o.isPresent then 1 else 0) := by
  refine ⟨?_, ?_, ?_⟩
  · intro h
    simp [Optional.ifPresent, h]
  · intro h
    have hp : o.isPresent = false := (isEmpty_eq_false_iff o).mp h
    simp [Optional.ifPresent, hp]
  · by_cases hp : o.isPresent = true
    · simp [Optional.ifPresent, countCalls, hp]
    · simp [Optional.ifPresent, hp]

/-- C7: `isPresentAnd(predicate)` — for an effect-free predicate the result
is `isPresent && predicate(value)`; on a present container the result is
exactly one application of the (possibly failing) predicate, so its errors
propagate; on an empty container the call short-circuits to `false` without
touching the caller state, so the predicate is never invoked. -/
theorem isPresentAnd_spec (o : Optional α)
    (p : JSVal α → σ → σ × Except ε Bool) (pred : JSVal α → Bool) (s : σ) :
    (o.isPresent = true → o.isPresentAnd p s = p o._value s)
    ∧ (o.isEmpty = true → o.isPresentAnd p s = (s, Except.ok false))
    ∧ ((o.isPresentAnd (pureP pred : JSVal α → σ → σ × Except ε Bool) s).2
        = Except.ok (o.isPresent && pred o._value)) := by
  refine ⟨?_, ?_, ?_⟩
  · intro h
    simp [Optional.isPresentAnd, h]
  · intro h
    have hp : o.isPresent = false := (isEmpty_eq_false_iff o).mp h
    simp [Optional.isPresentAnd, hp]
  · by_cases hp : o.isPresent = true
    · simp [Optional.isPresentAnd, pureP, hp]
    · simp only [Bool.not_eq_true] at hp
      simp [Optional.isPresentAnd, pureP, hp]

/-- C8: `ifPresentAsync(action)` — when the container is empty the promise
resolves immediately with the caller state untouched and the action never
invoked; when present the awaited outcome is exactly the outcome of one full
run of the action (final state and result, including any rejection), so the
call completes only with the action's completion and propagates its failure. -/
theorem ifPresentAsync_spec (o : Optional α)
    (func : JSVal α → σ → σ × Except ε Unit) (s : σ) :
    (o.isEmpty = true → o.ifPresentAsync func s = (s, Except.ok ()))
    ∧ (o.isPresent = true → o.ifPresentAsync func s = func o._value s)
    ∧ (o.ifPresentAsync (countCalls func) (0, s)).1.1
        = (if o.isPresent then 1 else 0) := by
  refine ⟨?_, ?_, ?_⟩
  · intro h
    have hp : o.isPresent = false := (isEmpty_eq_false_iff o).mp h
    simp [Optional.ifPresentAsync, hp]
  · intro h
    simp [Optional.ifPresentAsync, h]
  · by_cases hp : o.isPresent = true
    · simp [Optional.ifPresentAsync, countCalls, hp]
    · simp [Optional.ifPresentAsync, hp]

/-- C9: for every container state, `isEmpty()` is exactly the negation of
`isPresent()`; both are pure functions of the container state, so repeated
calls on an unmutated container give the same result. -/
theorem isEmpty_neg_isPresent (o : Optional α) :
    o.isEmpty = !o.isPresent ∧ (o.isEmpty = true ↔ o.isPresent = false) := by
  exact ⟨rfl, isEmpty_eq_false_iff o⟩

/-- C10: calling `orElse` on an empty container with an absent default (the
null or the undefined sentinel) stores that sentinel unvalidated, leaves the
container empty, and a subsequent `get()` still raises the
`NoSuchElementException`. -/
theorem orElse_absent_default (o : Optional α) (v : JSVal α)
    (h1 : o.isEmpty = true) (h2 : v = JSVal.vnull ∨ v = JSVal.vundef) :
    (o.orElse v)._value = v
    ∧ (o.orElse v).isEmpty = true
    ∧ (o.orElse v).get = Except.error (NoSuchElementException.make none) := by
  have horElse : o.orElse v = Optional.mk v := by
    simp [Optional.orElse, h1]
  rcases h2 with h | h <;> subst h <;>
    simp [horElse, Optional.isEmpty, Optional.isPresent, Optional.get,
      JSVal.isNull, JSVal.isUndefined]

/-- C10 witness: `of(null).orElse(undefined)` is still empty and `get()`
still raises. -/
theorem orElse_absent_default_witness :
    (Optional.of (JSVal.vnull : JSVal Nat)).isEmpty = true
    ∧ ((Optional.of (JSVal.vnull : JSVal Nat)).orElse JSVal.vundef).isEmpty = true
    ∧ ((Optional.of (JSVal.vnull : JSVal Nat)).orElse JSVal.vundef).get
        = Except.error (NoSuchElementException.make none) := by
  refine ⟨by decide, ?_, ?_⟩
  · exact (orElse_absent_default (Optional.of (JSVal.vnull : JSVal Nat))
      JSVal.vundef (by decide) (Or.inr rfl)).2.1
  · exact (orElse_absent_default (Optional.of (JSVal.vnull : JSVal Nat))
      JSVal.vundef (by decide) (Or.inr rfl)).2.2
